import Mathlib

/-!
Shallow embedding of the twitter-app data-access layer.

The relational schema is transcribed from the `CREATE TABLE` statements in
`BIG_DATA_CONCEPTS.md` (users, tweets, follows, likes, retweets).  Tables are
lists of rows; UUIDs and timestamps are `Nat`.  The GraphQL mutations
(Signup, UpdateUser, CreateTweet, UpdateTweet, DeleteTweet, LikeTweet,
UnlikeTweet, Retweet, RemoveRetweet, Follow, Unfollow) are embedded from the
API documentation (error codes UNAUTHORIZED / VALIDATION / NOT_FOUND /
DUPLICATE, validation rules, cascade behaviour) as functions
`DB → Except ApiError DB`.  The `homeFeed` resolver is embedded from the SQL
query given verbatim in the development guide.
-/

namespace TwitterApp

/-- Row of the `users` table: `id UUID PRIMARY KEY`,
`email VARCHAR UNIQUE NOT NULL`, `name VARCHAR NOT NULL`, `avatar_url TEXT`. -/
structure User where
  id : Nat
  email : String
  name : String
  avatar_url : String
  deriving DecidableEq, Repr

/-- Row of the `tweets` table: `id UUID PRIMARY KEY`,
`user_id UUID NOT NULL REFERENCES users(id) ON DELETE CASCADE`,
`content TEXT NOT NULL`, `created_at`, `updated_at`. -/
structure Tweet where
  id : Nat
  user_id : Nat
  content : String
  created_at : Nat
  updated_at : Nat
  deriving DecidableEq, Repr

/-- Row of the `follows` table: `id UUID PRIMARY KEY`, `follower_id` and
`following_id` both `REFERENCES users(id) ON DELETE CASCADE`,
`UNIQUE(follower_id, following_id)`. -/
structure Follow where
  id : Nat
  follower_id : Nat
  following_id : Nat
  created_at : Nat
  deriving DecidableEq, Repr

/-- Row of the `likes` table: `id UUID PRIMARY KEY`,
`user_id REFERENCES users(id) ON DELETE CASCADE`,
`tweet_id REFERENCES tweets(id) ON DELETE CASCADE`,
`UNIQUE(user_id, tweet_id)`. -/
structure Like where
  id : Nat
  user_id : Nat
  tweet_id : Nat
  created_at : Nat
  deriving DecidableEq, Repr

/-- Row of the `retweets` table, same shape and constraints as `likes`. -/
structure Retweet where
  id : Nat
  user_id : Nat
  tweet_id : Nat
  created_at : Nat
  deriving DecidableEq, Repr

/-- The whole relational database state. -/
structure DB where
  users : List User
  tweets : List Tweet
  follows : List Follow
  likes : List Like
  retweets : List Retweet
  deriving DecidableEq, Repr

/-! ## Schema-level constraints (transcribed from the `CREATE TABLE`s) -/

/-- `users.id` is a primary key. -/
def usersPK (db : DB) : Prop := (db.users.map User.id).Nodup

/-- `users.email` is `UNIQUE`. -/
def usersEmailUnique (db : DB) : Prop := (db.users.map User.email).Nodup

/-- `tweets.id` is a primary key. -/
def tweetsPK (db : DB) : Prop := (db.tweets.map Tweet.id).Nodup

/-- `follows.id` is a primary key. -/
def followsPK (db : DB) : Prop := (db.follows.map Follow.id).Nodup

/-- `likes.id` is a primary key. -/
def likesPK (db : DB) : Prop := (db.likes.map Like.id).Nodup

/-- `retweets.id` is a primary key. -/
def retweetsPK (db : DB) : Prop := (db.retweets.map Retweet.id).Nodup

/-- `tweets.user_id REFERENCES users(id)`. -/
def tweetsFK (db : DB) : Prop :=
  ∀ t ∈ db.tweets, ∃ u ∈ db.users, u.id = t.user_id

/-- `follows.follower_id` and `follows.following_id` both reference `users(id)`. -/
def followsFK (db : DB) : Prop :=
  ∀ f ∈ db.follows,
    (∃ u ∈ db.users, u.id = f.follower_id) ∧ (∃ u ∈ db.users, u.id = f.following_id)

/-- `likes.user_id REFERENCES users(id)` and `likes.tweet_id REFERENCES tweets(id)`. -/
def likesFK (db : DB) : Prop :=
  ∀ l ∈ db.likes,
    (∃ u ∈ db.users, u.id = l.user_id) ∧ (∃ t ∈ db.tweets, t.id = l.tweet_id)

/-- `retweets.user_id REFERENCES users(id)` and `retweets.tweet_id REFERENCES tweets(id)`. -/
def retweetsFK (db : DB) : Prop :=
  ∀ r ∈ db.retweets,
    (∃ u ∈ db.users, u.id = r.user_id) ∧ (∃ t ∈ db.tweets, t.id = r.tweet_id)

/-- `UNIQUE(follower_id, following_id)` on `follows`. -/
def followsUniquePair (db : DB) : Prop :=
  (db.follows.map (fun f => (f.follower_id, f.following_id))).Nodup

/-- `UNIQUE(user_id, tweet_id)` on `likes`. -/
def likesUniquePair (db : DB) : Prop :=
  (db.likes.map (fun l => (l.user_id, l.tweet_id))).Nodup

/-- `UNIQUE(user_id, tweet_id)` on `retweets`. -/
def retweetsUniquePair (db : DB) : Prop :=
  (db.retweets.map (fun r => (r.user_id, r.tweet_id))).Nodup

/-- Conjunction of every constraint the relational schema declares. -/
def schemaOk (db : DB) : Prop :=
  usersPK db ∧ usersEmailUnique db ∧ tweetsPK db ∧ followsPK db ∧ likesPK db ∧
  retweetsPK db ∧ tweetsFK db ∧ followsFK db ∧ likesFK db ∧ retweetsFK db ∧
  followsUniquePair db ∧ likesUniquePair db ∧ retweetsUniquePair db

instance : DecidablePred usersPK := fun db => by unfold usersPK; infer_instance
instance : DecidablePred usersEmailUnique := fun db => by unfold usersEmailUnique; infer_instance
instance : DecidablePred tweetsPK := fun db => by unfold tweetsPK; infer_instance
instance : DecidablePred followsPK := fun db => by unfold followsPK; infer_instance
instance : DecidablePred likesPK := fun db => by unfold likesPK; infer_instance
instance : DecidablePred retweetsPK := fun db => by unfold retweetsPK; infer_instance
instance : DecidablePred tweetsFK := fun db => by unfold tweetsFK; infer_instance
instance : DecidablePred followsFK := fun db => by unfold followsFK; infer_instance
instance : DecidablePred likesFK := fun db => by unfold likesFK; infer_instance
instance : DecidablePred retweetsFK := fun db => by unfold retweetsFK; infer_instance
instance : DecidablePred followsUniquePair := fun db => by unfold followsUniquePair; infer_instance
instance : DecidablePred likesUniquePair := fun db => by unfold likesUniquePair; infer_instance
instance : DecidablePred retweetsUniquePair := fun db => by unfold retweetsUniquePair; infer_instance
instance : DecidablePred schemaOk := fun db => by unfold schemaOk; infer_instance

/-! ## Application-layer invariants (documented as enforced by app code) -/

/-- "No self-follows: Application layer validation prevents
`follower_id == following_id`" (`BIG_DATA_CONCEPTS.md`, follows table notes). -/
def noSelfFollow (db : DB) : Prop :=
  ∀ f ∈ db.follows, f.follower_id ≠ f.following_id

instance : DecidablePred noSelfFollow := fun db => by unfold noSelfFollow; infer_instance

/-- "280 character limit typically enforced in API" (`BIG_DATA_CONCEPTS.md`,
tweets table notes): tweet content is non-empty and at most 280 characters. -/
def contentWithinLimit (db : DB) : Prop :=
  ∀ t ∈ db.tweets, 1 ≤ t.content.length ∧ t.content.length ≤ 280

instance : DecidablePred contentWithinLimit := fun db => by
  unfold contentWithinLimit; infer_instance

/-! ## API error codes (from the GraphQL API documentation) -/

/-- Error codes documented for the API: `UNAUTHORIZED`, `VALIDATION`,
`NOT_FOUND`, `DUPLICATE`. -/
inductive ApiError where
  | unauthorized
  | validation (msg : String)
  | notFound
  | duplicate
  deriving DecidableEq, Repr

/-- The `validateTweet` middleware from the development guide: content is
required (non-empty) and must be at most 280 characters. -/
def validateTweet (content : String) : Option ApiError :=
  if content.length = 0 then some (.validation "Content is required")
  else if content.length > 280 then
    some (.validation "Content must be 280 characters or less")
  else none

/-- Is `uid` the id of an authenticated user, i.e. a row of `users`?
(The resolvers begin with `if (!req.user) throw new Error('Unauthorized')`.) -/
def isUser (db : DB) (uid : Nat) : Bool := db.users.any (fun u => u.id == uid)

/-! ## Mutations, embedded from the API documentation -/

/-- `Signup` mutation: creates a user; the `email UNIQUE` constraint rejects a
duplicate email. -/
def signup (db : DB) (email password name : String) (uid ts : Nat) :
    Except ApiError DB :=
  let _ := password
  let _ := ts
  if db.users.any (fun u => u.email == email) then .error .duplicate
  else .ok { db with
    users := db.users ++ [{ id := uid, email := email, name := name,
                            avatar_url := "" }] }

/-- `UpdateUser` mutation: an authenticated user updates their own profile
fields (here: display name); ids and relations are untouched. -/
def updateUser (db : DB) (uid : Nat) (name : String) : Except ApiError DB :=
  if !isUser db uid then .error .unauthorized
  else .ok { db with
    users := db.users.map (fun u => if u.id == uid then { u with name := name } else u) }

/-- `CreateTweet` mutation: requires authentication, validates content
(1–280 characters), then inserts a tweet owned by the authenticated user. -/
def createTweet (db : DB) (uid : Nat) (content : String) (tid ts : Nat) :
    Except ApiError DB :=
  if !isUser db uid then .error .unauthorized
  else match validateTweet content with
  | some e => .error e
  | none => .ok { db with
      tweets := db.tweets ++ [{ id := tid, user_id := uid, content := content,
                                created_at := ts, updated_at := ts }] }

/-- `UpdateTweet` mutation: only the owner may edit; content is validated;
`updated_at` is refreshed. -/
def updateTweet (db : DB) (uid tid : Nat) (content : String) (ts : Nat) :
    Except ApiError DB :=
  if !isUser db uid then .error .unauthorized
  else match db.tweets.find? (fun t => t.id == tid) with
  | none => .error .notFound
  | some t =>
    if t.user_id != uid then .error .unauthorized
    else match validateTweet content with
    | some e => .error e
    | none => .ok { db with
        tweets := db.tweets.map (fun t0 =>
          if t0.id == tid then { t0 with content := content, updated_at := ts } else t0) }

/-- `DeleteTweet` mutation: only the owner may delete; the row is removed and
the `ON DELETE CASCADE` foreign keys remove every `likes` and `retweets` row
that references the tweet. -/
def deleteTweet (db : DB) (uid tid : Nat) : Except ApiError DB :=
  if !isUser db uid then .error .unauthorized
  else match db.tweets.find? (fun t => t.id == tid) with
  | none => .error .notFound
  | some t =>
    if t.user_id != uid then .error .unauthorized
    else .ok { db with
      tweets := db.tweets.filter (fun t0 => t0.id != tid),
      likes := db.likes.filter (fun l => l.tweet_id != tid),
      retweets := db.retweets.filter (fun r => r.tweet_id != tid) }

/-- `LikeTweet` mutation: requires authentication and an existing tweet; a
second like of the same tweet by the same user hits the composite
`UNIQUE(user_id, tweet_id)` constraint and is answered with the `DUPLICATE`
error ("User already liked this tweet"); app validation also rejects liking
one's own tweet.  On success one row is inserted into `likes`. -/
def likeTweet (db : DB) (uid tid lid ts : Nat) : Except ApiError DB :=
  if !isUser db uid then .error .unauthorized
  else match db.tweets.find? (fun t => t.id == tid) with
  | none => .error .notFound
  | some t =>
    if db.likes.any (fun l => l.user_id == uid && l.tweet_id == tid) then
      .error .duplicate
    else if t.user_id == uid then .error (.validation "Cannot like own tweet")
    else .ok { db with
      likes := db.likes ++ [{ id := lid, user_id := uid, tweet_id := tid,
                              created_at := ts }] }

/-- `UnlikeTweet` mutation: the user must have liked the tweet; the matching
row is deleted from `likes`. -/
def unlikeTweet (db : DB) (uid tid : Nat) : Except ApiError DB :=
  if !isUser db uid then .error .unauthorized
  else if !db.likes.any (fun l => l.user_id == uid && l.tweet_id == tid) then
    .error .notFound
  else .ok { db with
    likes := db.likes.filter (fun l => !(l.user_id == uid && l.tweet_id == tid)) }

/-- `Retweet` mutation, mirroring `LikeTweet` on the `retweets` table. -/
def retweetTweet (db : DB) (uid tid rid ts : Nat) : Except ApiError DB :=
  if !isUser db uid then .error .unauthorized
  else match db.tweets.find? (fun t => t.id == tid) with
  | none => .error .notFound
  | some t =>
    if db.retweets.any (fun r => r.user_id == uid && r.tweet_id == tid) then
      .error .duplicate
    else if t.user_id == uid then .error (.validation "Cannot retweet own tweet")
    else .ok { db with
      retweets := db.retweets ++ [{ id := rid, user_id := uid, tweet_id := tid,
                                    created_at := ts }] }

/-- `RemoveRetweet` mutation, mirroring `UnlikeTweet`. -/
def unretweetTweet (db : DB) (uid tid : Nat) : Except ApiError DB :=
  if !isUser db uid then .error .unauthorized
  else if !db.retweets.any (fun r => r.user_id == uid && r.tweet_id == tid) then
    .error .notFound
  else .ok { db with
    retweets := db.retweets.filter (fun r => !(r.user_id == uid && r.tweet_id == tid)) }

/-- `Follow` mutation: requires authentication and an existing target user;
app validation rejects following yourself ("Cannot follow self"); the
composite `UNIQUE(follower_id, following_id)` constraint rejects a duplicate
follow.  On success one directed edge is inserted into `follows`. -/
def followUser (db : DB) (uid target fid ts : Nat) : Except ApiError DB :=
  if !isUser db uid then .error .unauthorized
  else if !isUser db target then .error .notFound
  else if uid == target then .error (.validation "Cannot follow self")
  else if db.follows.any (fun f => f.follower_id == uid && f.following_id == target) then
    .error .duplicate
  else .ok { db with
    follows := db.follows ++ [{ id := fid, follower_id := uid,
                                following_id := target, created_at := ts }] }

/-- `Unfollow` mutation: the user must currently follow the target; the
matching row is deleted from `follows`. -/
def unfollowUser (db : DB) (uid target : Nat) : Except ApiError DB :=
  if !isUser db uid then .error .unauthorized
  else if !db.follows.any (fun f => f.follower_id == uid && f.following_id == target) then
    .error .notFound
  else .ok { db with
    follows := db.follows.filter (fun f =>
      !(f.follower_id == uid && f.following_id == target)) }

/-- One data-modifying operation of the API. -/
inductive Op where
  | signup (email password name : String) (uid ts : Nat)
  | updateUser (uid : Nat) (name : String)
  | createTweet (uid : Nat) (content : String) (tid ts : Nat)
  | updateTweet (uid tid : Nat) (content : String) (ts : Nat)
  | deleteTweet (uid tid : Nat)
  | likeTweet (uid tid lid ts : Nat)
  | unlikeTweet (uid tid : Nat)
  | retweetTweet (uid tid rid ts : Nat)
  | unretweetTweet (uid tid : Nat)
  | followUser (uid target fid ts : Nat)
  | unfollowUser (uid target : Nat)
  deriving DecidableEq, Repr

/-- Dispatch an operation to its mutation. -/
def applyOp (db : DB) : Op → Except ApiError DB
  | .signup email password name uid ts => signup db email password name uid ts
  | .updateUser uid name => updateUser db uid name
  | .createTweet uid content tid ts => createTweet db uid content tid ts
  | .updateTweet uid tid content ts => updateTweet db uid tid content ts
  | .deleteTweet uid tid => deleteTweet db uid tid
  | .likeTweet uid tid lid ts => likeTweet db uid tid lid ts
  | .unlikeTweet uid tid => unlikeTweet db uid tid
  | .retweetTweet uid tid rid ts => retweetTweet db uid tid rid ts
  | .unretweetTweet uid tid => unretweetTweet db uid tid
  | .followUser uid target fid ts => followUser db uid target fid ts
  | .unfollowUser uid target => unfollowUser db uid target

/-- The database state after an operation: on an error the transaction is
rolled back, so the state is unchanged. -/
def stepResult (db : DB) (op : Op) : DB :=
  match applyOp db op with
  | .ok db2 => db2
  | .error _ => db

/-! ## The `homeFeed` resolver

Embedded from the SQL query in the development guide:

  SELECT t.*, u.name, u.avatar_url,
    COUNT(DISTINCT l.id) as likes_count, COUNT(DISTINCT r.id) as retweets_count
  FROM tweets t JOIN users u ON t.user_id = u.id
  LEFT JOIN likes l ON t.id = l.tweet_id
  LEFT JOIN retweets r ON t.id = r.tweet_id
  WHERE t.user_id = ? OR t.user_id IN
    (SELECT following_id FROM follows WHERE follower_id = ?)
  GROUP BY t.id, u.id ORDER BY t.created_at DESC LIMIT ? OFFSET ?
-/

/-- `SELECT following_id FROM follows WHERE follower_id = uid`. -/
def followingIds (db : DB) (uid : Nat) : List Nat :=
  (db.follows.filter (fun f => f.follower_id == uid)).map Follow.following_id

/-- The `WHERE` clause of the feed query. -/
def inHomeFeed (db : DB) (uid : Nat) (t : Tweet) : Bool :=
  t.user_id == uid || (followingIds db uid).contains t.user_id

/-- `likes` rows joining tweet `tid` (`ON t.id = l.tweet_id`). -/
def likesOf (db : DB) (tid : Nat) : List Like :=
  db.likes.filter (fun l => l.tweet_id == tid)

/-- `retweets` rows joining tweet `tid`. -/
def retweetsOf (db : DB) (tid : Nat) : List Retweet :=
  db.retweets.filter (fun r => r.tweet_id == tid)

/-- `LEFT JOIN` padding: an empty match list yields a single all-`NULL` row. -/
def padNull {α : Type} (xs : List α) : List (Option α) :=
  if xs.isEmpty then [none] else xs.map some

/-- The rows of one `GROUP BY (t.id, u.id)` group: the tweet's two
`LEFT JOIN`ed match lists crossed, `NULL`-padded. -/
def joinGroupRows {α β : Type} (L : List α) (R : List β) :
    List (Option α × Option β) :=
  (padNull L).flatMap (fun a => (padNull R).map (fun b => (a, b)))

/-- `COUNT(DISTINCT x)`: number of distinct non-`NULL` values. -/
def countDistinct {α : Type} [DecidableEq α] (xs : List (Option α)) : Nat :=
  (xs.filterMap id).dedup.length

/-- `COUNT(DISTINCT l.id)` over a tweet's group rows. -/
def likesCountAgg (L : List Like) (R : List Retweet) : Nat :=
  countDistinct ((joinGroupRows L R).map (fun p => p.1.map Like.id))

/-- `COUNT(DISTINCT r.id)` over a tweet's group rows. -/
def retweetsCountAgg (L : List Like) (R : List Retweet) : Nat :=
  countDistinct ((joinGroupRows L R).map (fun p => p.2.map Retweet.id))

/-- One row of the `homeFeed` result set. -/
structure FeedRow where
  tweet : Tweet
  author_name : String
  author_avatar_url : String
  likes_count : Nat
  retweets_count : Nat
  deriving DecidableEq, Repr

/-- The record a tweet and its author produce in the feed's `SELECT` list. -/
def feedRowOf (db : DB) (t : Tweet) (u : User) : FeedRow :=
  { tweet := t, author_name := u.name, author_avatar_url := u.avatar_url,
    likes_count := likesCountAgg (likesOf db t.id) (retweetsOf db t.id),
    retweets_count := retweetsCountAgg (likesOf db t.id) (retweetsOf db t.id) }

/-- The joined, filtered, grouped rows (before `ORDER BY` and pagination). -/
def homeFeedRows (db : DB) (uid : Nat) : List FeedRow :=
  (db.tweets.filter (fun t => inHomeFeed db uid t)).flatMap (fun t =>
    (db.users.filter (fun u => u.id == t.user_id)).map (feedRowOf db t))

/-- The full result set in `ORDER BY t.created_at DESC` order. -/
def homeFeedAll (db : DB) (uid : Nat) : List FeedRow :=
  (homeFeedRows db uid).mergeSort
    (fun a b => decide (b.tweet.created_at ≤ a.tweet.created_at))

/-- `LIMIT l OFFSET o` applied to the ordered result set. -/
def homeFeed (db : DB) (uid : Nat) (l o : Nat) : List FeedRow :=
  ((homeFeedAll db uid).drop o).take l

/-- The resolver: `if (!req.user) throw new Error('Unauthorized')`, then the
paginated query. -/
def homeFeedResolver (db : DB) (reqUser : Option Nat) (l o : Nat) :
    Except ApiError (List FeedRow) :=
  match reqUser with
  | none => .error .unauthorized
  | some uid => .ok (homeFeed db uid l o)

/-- `SELECT COUNT(*) FROM likes WHERE tweet_id = ?` (the documented
standalone like-count query). -/
def countLikesQuery (db : DB) (tid : Nat) : Nat :=
  db.likes.countP (fun l => l.tweet_id == tid)

/-- `SELECT COUNT(*) FROM retweets WHERE tweet_id = ?`. -/
def countRetweetsQuery (db : DB) (tid : Nat) : Nat :=
  db.retweets.countP (fun r => r.tweet_id == tid)

/-! ## `createUserAvatarUrl` (`packages/server/src/utils/createImagesUrl.js`)

  createUserAvatarUrl: email =>
    `https://api.dicebear.com/7.x/avataaars/svg?seed=$\x7bencodeURIComponent(email)\x7d&scale=80`

`encodeURIComponent` leaves `A–Z a–z 0–9 - _ . ! ~ * ' ( )` unescaped and
percent-encodes the UTF-8 bytes of every other character with uppercase
hexadecimal digits. -/

/-- Characters `encodeURIComponent` leaves unescaped (39 is the apostrophe). -/
def isUriUnreserved (c : Char) : Bool :=
  (Char.ofNat 65 ≤ c && c ≤ Char.ofNat 90) ||
  (Char.ofNat 97 ≤ c && c ≤ Char.ofNat 122) ||
  (Char.ofNat 48 ≤ c && c ≤ Char.ofNat 57) ||
  c == Char.ofNat 45 || c == Char.ofNat 95 || c == Char.ofNat 46 ||
  c == Char.ofNat 33 || c == Char.ofNat 126 || c == Char.ofNat 42 ||
  c == Char.ofNat 39 || c == Char.ofNat 40 || c == Char.ofNat 41

/-- Uppercase hexadecimal digit for `n < 16`. -/
def hexDigit (n : Nat) : Char :=
  if n < 10 then Char.ofNat (48 + n) else Char.ofNat (55 + n)

/-- `%XX` for one byte. -/
def percentByte (b : Nat) : List Char :=
  [Char.ofNat 37, hexDigit (b / 16 % 16), hexDigit (b % 16)]

/-- The UTF-8 bytes of a Unicode scalar value. -/
def utf8Bytes (n : Nat) : List Nat :=
  if n < 128 then [n]
  else if n < 2048 then [192 + n / 64, 128 + n % 64]
  else if n < 65536 then [224 + n / 4096, 128 + n / 64 % 64, 128 + n % 64]
  else [240 + n / 262144, 128 + n / 4096 % 64, 128 + n / 64 % 64, 128 + n % 64]

/-- `encodeURIComponent` over a character list. -/
def encodeChars : List Char → List Char
  | [] => []
  | c :: cs =>
    (if isUriUnreserved c then [c] else (utf8Bytes c.toNat).flatMap percentByte)
      ++ encodeChars cs

/-- JavaScript's `encodeURIComponent`. -/
def encodeURIComponent (s : String) : String := String.mk (encodeChars s.data)

/-- `createUserAvatarUrl` from `createImagesUrl.js`. -/
def createUserAvatarUrl (email : String) : String :=
  "https://api.dicebear.com/7.x/avataaars/svg?seed=" ++
    encodeURIComponent email ++ "&scale=80"

/-- Uppercase hexadecimal digit characters `0–9`, `A–F`. -/
def isHexUpperDigit (c : Char) : Bool :=
  (Char.ofNat 48 ≤ c && c ≤ Char.ofNat 57) ||
  (Char.ofNat 65 ≤ c && c ≤ Char.ofNat 70)

/-! ## Concrete sample data (for evaluating the theorems on closed inputs) -/

/-- A small schema-conformant database: user 1 follows user 2; tweet 10 (by
user 1) has two likes and one retweet; tweet 11 is by user 2; tweet 12 is by
the unfollowed user 3. -/
def sampleDB : DB :=
  { users := [{ id := 1, email := "a@x", name := "A", avatar_url := "" },
              { id := 2, email := "b@x", name := "B", avatar_url := "" },
              { id := 3, email := "c@x", name := "C", avatar_url := "" }],
    tweets := [{ id := 10, user_id := 1, content := "hi", created_at := 100,
                 updated_at := 100 },
               { id := 11, user_id := 2, content := "yo", created_at := 200,
                 updated_at := 200 },
               { id := 12, user_id := 3, content := "zz", created_at := 150,
                 updated_at := 150 }],
    follows := [{ id := 20, follower_id := 1, following_id := 2, created_at := 50 }],
    likes := [{ id := 30, user_id := 2, tweet_id := 10, created_at := 60 },
              { id := 31, user_id := 3, tweet_id := 10, created_at := 61 }],
    retweets := [{ id := 40, user_id := 2, tweet_id := 10, created_at := 70 }] }

/-- A database that satisfies every schema constraint yet contains a
self-follow: user 1 follows user 1. -/
def selfFollowDB : DB :=
  { users := [{ id := 1, email := "a@x", name := "A", avatar_url := "" }],
    tweets := [],
    follows := [{ id := 20, follower_id := 1, following_id := 1, created_at := 50 }],
    likes := [],
    retweets := [] }

/-- A database that satisfies every schema constraint although one tweet's
content is 281 characters long (the schema declares `content TEXT NOT NULL`
with no length check). -/
def longContentDB : DB :=
  { users := [{ id := 1, email := "a@x", name := "A", avatar_url := "" }],
    tweets := [{ id := 10, user_id := 1,
                 content := String.mk (List.replicate 281 (Char.ofNat 97)),
                 created_at := 1, updated_at := 1 }],
    follows := [], likes := [], retweets := [] }

/-! ## Helper lemmas -/

theorem mem_padNull {α : Type} {xs : List α} {o : Option α} :
    o ∈ padNull xs ↔ (xs = [] ∧ o = none) ∨ ∃ a ∈ xs, o = some a := by
  unfold padNull
  split
  · rename_i h
    simp [List.isEmpty_iff.mp h]
  · rename_i h
    have hne : xs ≠ [] := by simpa [List.isEmpty_iff] using h
    simp [hne, List.mem_map, eq_comm]

theorem padNull_ne_nil {α : Type} (xs : List α) : padNull xs ≠ [] := by
  unfold padNull
  split
  · simp
  · rename_i h
    have hne : xs ≠ [] := by simpa [List.isEmpty_iff] using h
    intro hmap
    exact hne (List.map_eq_nil_iff.mp hmap)

theorem mem_joinGroupRows_fst {α β γ : Type} (L : List α) (R : List β)
    (f : α → γ) (x : γ) :
    (some x ∈ (joinGroupRows L R).map (fun p => p.1.map f)) ↔ ∃ a ∈ L, f a = x := by
  constructor
  · intro hx
    rcases List.mem_map.mp hx with ⟨p, hp, hpx⟩
    rcases List.mem_flatMap.mp hp with ⟨a, ha, hpa⟩
    rcases List.mem_map.mp hpa with ⟨b, _, hb⟩
    subst hb
    rcases mem_padNull.mp ha with ⟨_, rfl⟩ | ⟨a0, ha0, rfl⟩
    · simp at hpx
    · exact ⟨a0, ha0, by simpa using hpx⟩
  · rintro ⟨a, ha, rfl⟩
    rcases List.exists_mem_of_ne_nil _ (padNull_ne_nil R) with ⟨b, hb⟩
    refine List.mem_map.mpr ⟨(some a, b), ?_, rfl⟩
    refine List.mem_flatMap.mpr ⟨some a, ?_, List.mem_map.mpr ⟨b, hb, rfl⟩⟩
    exact mem_padNull.mpr (Or.inr ⟨a, ha, rfl⟩)

theorem mem_joinGroupRows_snd {α β γ : Type} (L : List α) (R : List β)
    (f : β → γ) (x : γ) :
    (some x ∈ (joinGroupRows L R).map (fun p => p.2.map f)) ↔ ∃ b ∈ R, f b = x := by
  constructor
  · intro hx
    rcases List.mem_map.mp hx with ⟨p, hp, hpx⟩
    rcases List.mem_flatMap.mp hp with ⟨a, _, hpa⟩
    rcases List.mem_map.mp hpa with ⟨b, hb, hpb⟩
    subst hpb
    rcases mem_padNull.mp hb with ⟨_, rfl⟩ | ⟨b0, hb0, rfl⟩
    · simp at hpx
    · exact ⟨b0, hb0, by simpa using hpx⟩
  · rintro ⟨b, hb, rfl⟩
    rcases List.exists_mem_of_ne_nil _ (padNull_ne_nil L) with ⟨a, ha⟩
    refine List.mem_map.mpr ⟨(a, some b), ?_, rfl⟩
    refine List.mem_flatMap.mpr ⟨a, ha, List.mem_map.mpr ⟨some b, ?_, rfl⟩⟩
    exact mem_padNull.mpr (Or.inr ⟨b, hb, rfl⟩)

theorem countDistinct_toFinset {α : Type} [DecidableEq α]
    (xs : List (Option α)) : countDistinct xs = (xs.filterMap id).toFinset.card := by
  unfold countDistinct
  exact (List.card_toFinset _).symm

/-- `COUNT(DISTINCT f a)` over the `LEFT JOIN` group rows counts each of the
first table's rows once, provided `f` is injective on the group (here: the
primary key). -/
theorem countAgg_fst {α β γ : Type} [DecidableEq γ] (L : List α) (R : List β)
    (f : α → γ) (hnd : (L.map f).Nodup) :
    countDistinct ((joinGroupRows L R).map (fun p => p.1.map f)) = L.length := by
  rw [countDistinct_toFinset]
  have hset :
      (((joinGroupRows L R).map (fun p => p.1.map f)).filterMap id).toFinset
        = (L.map f).toFinset := by
    ext x
    rw [List.mem_toFinset, List.mem_toFinset, List.mem_filterMap]
    constructor
    · rintro ⟨o, ho, hox⟩
      cases o with
      | none => simp at hox
      | some y =>
        have hyx : y = x := by simpa using hox
        subst hyx
        rcases (mem_joinGroupRows_fst L R f y).mp ho with ⟨a, ha, hfa⟩
        exact List.mem_map.mpr ⟨a, ha, hfa⟩
    · intro hx
      rcases List.mem_map.mp hx with ⟨a, ha, rfl⟩
      exact ⟨some (f a), (mem_joinGroupRows_fst L R f _).mpr ⟨a, ha, rfl⟩, rfl⟩
  rw [hset, List.toFinset_card_of_nodup hnd, List.length_map]

theorem countAgg_snd {α β γ : Type} [DecidableEq γ] (L : List α) (R : List β)
    (f : β → γ) (hnd : (R.map f).Nodup) :
    countDistinct ((joinGroupRows L R).map (fun p => p.2.map f)) = R.length := by
  rw [countDistinct_toFinset]
  have hset :
      (((joinGroupRows L R).map (fun p => p.2.map f)).filterMap id).toFinset
        = (R.map f).toFinset := by
    ext x
    rw [List.mem_toFinset, List.mem_toFinset, List.mem_filterMap]
    constructor
    · rintro ⟨o, ho, hox⟩
      cases o with
      | none => simp at hox
      | some y =>
        have hyx : y = x := by simpa using hox
        subst hyx
        rcases (mem_joinGroupRows_snd L R f y).mp ho with ⟨b, hb, hfb⟩
        exact List.mem_map.mpr ⟨b, hb, hfb⟩
    · intro hx
      rcases List.mem_map.mp hx with ⟨b, hb, rfl⟩
      exact ⟨some (f b), (mem_joinGroupRows_snd L R f _).mpr ⟨b, hb, rfl⟩, rfl⟩
  rw [hset, List.toFinset_card_of_nodup hnd, List.length_map]

/-- A list whose image under `f` is duplicate-free has at most one element in
any fibre of `f`. -/
theorem nodup_countP_le_one {α β : Type} [DecidableEq β] (l : List α)
    (f : α → β) (p : β) (hnd : (l.map f).Nodup) :
    l.countP (fun x => decide (f x = p)) ≤ 1 := by
  induction l with
  | nil => simp
  | cons x xs ih =>
    rw [List.map_cons, List.nodup_cons] at hnd
    rw [List.countP_cons]
    by_cases hx : f x = p
    · have hzero : xs.countP (fun x => decide (f x = p)) = 0 := by
        rw [List.countP_eq_zero]
        intro a ha
        simp only [decide_eq_true_eq]
        intro hap
        exact hnd.1 (hx ▸ hap ▸ List.mem_map_of_mem f ha)
      simp [hzero, hx]
    · simp [hx, ih hnd.2]

theorem inHomeFeed_iff (db : DB) (uid : Nat) (t : Tweet) :
    inHomeFeed db uid t = true ↔
      t.user_id = uid ∨
        ∃ f ∈ db.follows, f.follower_id = uid ∧ f.following_id = t.user_id := by
  unfold inHomeFeed followingIds
  simp only [Bool.or_eq_true, beq_iff_eq, List.contains_iff_exists_mem_beq,
    List.mem_map, List.mem_filter]
  constructor
  · rintro (h | ⟨x, ⟨f, ⟨hf, hfu⟩, rfl⟩, hx⟩)
    · exact Or.inl h
    · exact Or.inr ⟨f, hf, by simpa using hfu, by simpa using hx.symm⟩
  · rintro (h | ⟨f, hf, hfu, hft⟩)
    · exact Or.inl h
    · exact Or.inr ⟨f.following_id, ⟨f, ⟨hf, by simpa using hfu⟩, rfl⟩, by simp [hft]⟩

theorem mem_homeFeedRows_iff (db : DB) (uid : Nat) (r : FeedRow) :
    r ∈ homeFeedRows db uid ↔
      ∃ t ∈ db.tweets, inHomeFeed db uid t = true ∧
        ∃ u ∈ db.users, u.id = t.user_id ∧ r = feedRowOf db t u := by
  unfold homeFeedRows
  simp only [List.mem_flatMap, List.mem_map, List.mem_filter, beq_iff_eq]
  constructor
  · rintro ⟨t, ⟨ht, htf⟩, u, ⟨hu, hui⟩, rfl⟩
    exact ⟨t, ht, htf, u, hu, hui, rfl⟩
  · rintro ⟨t, ht, htf, u, hu, hui, rfl⟩
    exact ⟨t, ⟨ht, htf⟩, u, ⟨hu, hui⟩, rfl⟩

theorem mem_homeFeedAll_iff (db : DB) (uid : Nat) (r : FeedRow) :
    r ∈ homeFeedAll db uid ↔ r ∈ homeFeedRows db uid :=
  (List.mergeSort_perm (homeFeedRows db uid) _).mem_iff

theorem homeFeedAll_sorted (db : DB) (uid : Nat) :
    List.Sorted (fun a b : FeedRow => b.tweet.created_at ≤ a.tweet.created_at)
      (homeFeedAll db uid) := by
  have hp := @List.sorted_mergeSort FeedRow
    (fun a b : FeedRow => decide (b.tweet.created_at ≤ a.tweet.created_at))
    (by intro a b c hab hbc
        simp only [decide_eq_true_eq] at *
        omega)
    (by intro a b
        rcases Nat.le_total b.tweet.created_at a.tweet.created_at with h | h <;>
          simp [h])
    (homeFeedRows db uid)
  exact hp.imp (fun h => of_decide_eq_true h)

/-! ## C1: the home timeline is exactly own + followed tweets, newest first -/

/-- C1.  For an authenticated user `uid` the `homeFeed` resolver succeeds and
paginates the full ordered result set `homeFeedAll`; a tweet appears in that
result set exactly when its author is `uid` or a user `uid` follows (given the
schema's `tweets.user_id` foreign key, which the inner join relies on); and
the result set is ordered by `created_at` descending. -/
theorem homeFeed_exact_and_ordered (db : DB) (uid : Nat) (l o : Nat)
    (hfk : tweetsFK db) :
    homeFeedResolver db (some uid) l o =
        .ok (((homeFeedAll db uid).drop o).take l)
    ∧ (∀ t : Tweet, (∃ r ∈ homeFeedAll db uid, r.tweet = t) ↔
        (t ∈ db.tweets ∧ (t.user_id = uid ∨
          ∃ f ∈ db.follows, f.follower_id = uid ∧ f.following_id = t.user_id)))
    ∧ List.Sorted (fun a b : FeedRow => b.tweet.created_at ≤ a.tweet.created_at)
        (homeFeedAll db uid) := by
  refine ⟨rfl, ?_, homeFeedAll_sorted db uid⟩
  intro t
  constructor
  · rintro ⟨r, hr, rfl⟩
    rcases (mem_homeFeedRows_iff db uid r).mp
        ((mem_homeFeedAll_iff db uid r).mp hr) with ⟨t0, ht0, htf, u, _, _, rfl⟩
    exact ⟨ht0, (inHomeFeed_iff db uid t0).mp htf⟩
  · rintro ⟨ht, hcond⟩
    rcases hfk t ht with ⟨u, hu, hui⟩
    refine ⟨feedRowOf db t u, ?_, rfl⟩
    refine (mem_homeFeedAll_iff db uid _).mpr
      ((mem_homeFeedRows_iff db uid _).mpr
        ⟨t, ht, (inHomeFeed_iff db uid t).mpr hcond, u, hu, hui, rfl⟩)

/-- Witness for C1 on `sampleDB`: the feed of user 1 contains tweet 11
(authored by the followed user 2), and the full result set is sorted by
recency. -/
theorem homeFeed_exact_and_ordered_witness :
    (∃ r ∈ homeFeedAll sampleDB 1,
        r.tweet = { id := 11, user_id := 2, content := "yo", created_at := 200,
                    updated_at := 200 })
    ∧ List.Sorted (fun a b : FeedRow => b.tweet.created_at ≤ a.tweet.created_at)
        (homeFeedAll sampleDB 1) := by
  have h := homeFeed_exact_and_ordered sampleDB 1 20 0 (by decide)
  exact ⟨(h.2.1 _).mpr (by decide), h.2.2⟩

/-! ## C9: `createUserAvatarUrl` builds the DiceBear URL deterministically -/

theorem hexDigit_good : ∀ n, n < 16 → isHexUpperDigit (hexDigit n) = true := by
  decide

theorem percentByte_good (b : Nat) :
    ∀ c ∈ percentByte b, c = Char.ofNat 37 ∨ isHexUpperDigit c = true := by
  intro c hc
  unfold percentByte at hc
  simp only [List.mem_cons, List.not_mem_nil, or_false] at hc
  rcases hc with rfl | rfl | rfl
  · exact Or.inl rfl
  · exact Or.inr (hexDigit_good _ (Nat.mod_lt _ (by norm_num)))
  · exact Or.inr (hexDigit_good _ (Nat.mod_lt _ (by norm_num)))

/-- Every character that `encodeURIComponent` emits is either an unreserved
character, the percent sign, or an uppercase hexadecimal digit. -/
theorem encodeChars_good (l : List Char) :
    ∀ c ∈ encodeChars l,
      isUriUnreserved c = true ∨ c = Char.ofNat 37 ∨ isHexUpperDigit c = true := by
  induction l with
  | nil => simp [encodeChars]
  | cons c0 cs ih =>
    intro c hc
    rw [encodeChars] at hc
    rcases List.mem_append.mp hc with h | h
    · split at h
      · rename_i hres
        rcases List.mem_singleton.mp h with rfl
        exact Or.inl hres
      · rcases List.mem_flatMap.mp h with ⟨b, _, hb⟩
        rcases percentByte_good b c hb with h1 | h1
        · exact Or.inr (Or.inl h1)
        · exact Or.inr (Or.inr h1)
    · exact ih c h

/-- C9.  `createUserAvatarUrl` is a function of the email alone: it returns
exactly the DiceBear URL with the percent-encoded email spliced between the
fixed query parts, equal emails give equal URLs, and the encoded seed consists
only of unreserved characters, `%`, and uppercase hexadecimal digits — so any
reserved URL character of the email has been percent-encoded. -/
theorem createUserAvatarUrl_spec (e e2 : String) (h : e = e2) :
    createUserAvatarUrl e =
      "https://api.dicebear.com/7.x/avataaars/svg?seed=" ++
        encodeURIComponent e ++ "&scale=80"
    ∧ createUserAvatarUrl e = createUserAvatarUrl e2
    ∧ ∀ c ∈ (encodeURIComponent e).data,
        isUriUnreserved c = true ∨ c = Char.ofNat 37 ∨ isHexUpperDigit c = true := by
  subst h
  exact ⟨rfl, rfl, encodeChars_good e.data⟩

/-- Witness for C9 at the concrete email `a&b@x.com` (which contains the
reserved characters `&` and `@`): the produced URL is the DiceBear URL with
the email percent-encoded. -/
theorem createUserAvatarUrl_spec_witness :
    createUserAvatarUrl "a&b@x.com" =
      "https://api.dicebear.com/7.x/avataaars/svg?seed=" ++
        encodeURIComponent "a&b@x.com" ++ "&scale=80"
    ∧ createUserAvatarUrl "a&b@x.com" =
      "https://api.dicebear.com/7.x/avataaars/svg?seed=a%26b%40x.com&scale=80" :=
  ⟨(createUserAvatarUrl_spec "a&b@x.com" "a&b@x.com" rfl).1, rfl⟩

/-! ## C4: `deleteTweet` cascades to `likes` and `retweets` -/

/-- C4.  When `deleteTweet` succeeds, the tweet row is gone and the cascade
has removed every `likes` row and every `retweets` row referencing it. -/
theorem deleteTweet_cascade (db : DB) (uid tid : Nat) (db2 : DB)
    (h : deleteTweet db uid tid = .ok db2) :
    db2.tweets.countP (fun t => t.id == tid) = 0
    ∧ db2.likes.countP (fun l => l.tweet_id == tid) = 0
    ∧ db2.retweets.countP (fun r => r.tweet_id == tid) = 0 := by
  unfold deleteTweet at h
  split at h
  · cases h
  · split at h
    · cases h
    · split at h
      · cases h
      · injection h with h
        subst h
        refine ⟨?_, ?_, ?_⟩ <;>
        · rw [List.countP_eq_zero]
          intro a ha
          have h2 := (List.mem_filter.mp ha).2
          simp only [bne_iff_ne, ne_eq] at h2
          simpa using h2

/-- Witness for C4 on `sampleDB`: deleting tweet 10 (owned by user 1) leaves
no tweet row, like row, or retweet row with id/`tweet_id` 10. -/
theorem deleteTweet_cascade_witness :
    (stepResult sampleDB (Op.deleteTweet 1 10)).tweets.countP
        (fun t => t.id == 10) = 0
    ∧ (stepResult sampleDB (Op.deleteTweet 1 10)).likes.countP
        (fun l => l.tweet_id == 10) = 0
    ∧ (stepResult sampleDB (Op.deleteTweet 1 10)).retweets.countP
        (fun r => r.tweet_id == 10) = 0 :=
  deleteTweet_cascade sampleDB 1 10 _ rfl

/-! ## C10: a duplicate like fails with `DUPLICATE` and changes nothing -/

/-- C10.  If an authenticated user has already liked an existing tweet, a
second `likeTweet` returns the `DUPLICATE` error and the database — in
particular the `likes` table — is unchanged. -/
theorem likeTweet_duplicate_atomic (db : DB) (uid tid lid ts : Nat)
    (hauth : isUser db uid = true)
    (htweet : ∃ t ∈ db.tweets, t.id = tid)
    (hdup : ∃ l ∈ db.likes, l.user_id = uid ∧ l.tweet_id = tid) :
    likeTweet db uid tid lid ts = .error .duplicate
    ∧ stepResult db (Op.likeTweet uid tid lid ts) = db := by
  have hfind : ∃ t0, db.tweets.find? (fun t => t.id == tid) = some t0 := by
    rw [← Option.isSome_iff_exists, List.find?_isSome]
    rcases htweet with ⟨t, ht, hti⟩
    exact ⟨t, ht, by simp [hti]⟩
  rcases hfind with ⟨t0, hfind⟩
  have hany : db.likes.any (fun l => l.user_id == uid && l.tweet_id == tid) = true := by
    rw [List.any_eq_true]
    rcases hdup with ⟨l, hl, h1, h2⟩
    exact ⟨l, hl, by simp [h1, h2]⟩
  have herr : likeTweet db uid tid lid ts = .error .duplicate := by
    unfold likeTweet
    rw [hauth, hfind]
    simp [hany]
  exact ⟨herr, by simp [stepResult, applyOp, herr]⟩

/-- Witness for C10 on `sampleDB`: user 2 already liked tweet 10, so liking it
again is rejected as a duplicate and the state is untouched. -/
theorem likeTweet_duplicate_atomic_witness :
    likeTweet sampleDB 2 10 99 999 = .error .duplicate
    ∧ stepResult sampleDB (Op.likeTweet 2 10 99 999) = sampleDB :=
  likeTweet_duplicate_atomic sampleDB 2 10 99 999 (by decide) (by decide) (by decide)

/-! ## C6: follows are unique directed edges -/

/-- C6.  Under the schema's composite `UNIQUE(follower_id, following_id)`
constraint the `follows` table holds at most one row per ordered pair, and
the edge is directed: a schema-conformant state may contain the edge `1 → 2`
without the reverse edge `2 → 1`. -/
theorem follow_directed_unique :
    (∀ db : DB, ∀ a b : Nat, schemaOk db →
      db.follows.countP (fun f => f.follower_id == a && f.following_id == b) ≤ 1)
    ∧ (∃ db : DB, schemaOk db ∧
        (∃ f ∈ db.follows, f.follower_id = 1 ∧ f.following_id = 2) ∧
        ∀ f ∈ db.follows, ¬(f.follower_id = 2 ∧ f.following_id = 1)) := by
  constructor
  · intro db a b hok
    have hnd : followsUniquePair db := hok.2.2.2.2.2.2.2.2.2.2.1
    have hle := nodup_countP_le_one db.follows
      (fun f => (f.follower_id, f.following_id)) (a, b) hnd
    have hcongr : ∀ f ∈ db.follows,
        ((f.follower_id == a && f.following_id == b) = true) ↔
          (decide ((f.follower_id, f.following_id) = (a, b)) = true) := by
      intro f _
      simp [Prod.ext_iff]
    calc db.follows.countP (fun f => f.follower_id == a && f.following_id == b)
        = db.follows.countP (fun f => decide ((f.follower_id, f.following_id) = (a, b))) :=
          List.countP_congr hcongr
      _ ≤ 1 := hle
  · exact ⟨sampleDB, by decide, by decide, by decide⟩

/-- Witness for C6 on `sampleDB`: the pair `(1, 2)` occurs at most once. -/
theorem follow_directed_unique_witness :
    sampleDB.follows.countP
      (fun f => f.follower_id == 1 && f.following_id == 2) ≤ 1 :=
  follow_directed_unique.1 sampleDB 1 2 (by decide)

/-! ## C5: the returned counts equal the number of junction rows -/

/-- C5.  Every row the feed returns carries a `likes_count` equal to
`SELECT COUNT(*) FROM likes WHERE tweet_id = ?` for its tweet, and a
`retweets_count` equal to the same count over `retweets` — the
`COUNT(DISTINCT ...)` aggregation over the double `LEFT JOIN` is exact,
given the primary keys on `likes.id` and `retweets.id`. -/
theorem feed_counts_exact (db : DB) (uid : Nat) (r : FeedRow)
    (hL : likesPK db) (hR : retweetsPK db) (hr : r ∈ homeFeedAll db uid) :
    r.likes_count = countLikesQuery db r.tweet.id
    ∧ r.retweets_count = countRetweetsQuery db r.tweet.id := by
  rcases (mem_homeFeedRows_iff db uid r).mp
      ((mem_homeFeedAll_iff db uid r).mp hr) with ⟨t, _, _, u, _, _, rfl⟩
  have hndL : ((likesOf db t.id).map Like.id).Nodup :=
    List.Nodup.sublist ((List.filter_sublist db.likes).map Like.id) hL
  have hndR : ((retweetsOf db t.id).map Retweet.id).Nodup :=
    List.Nodup.sublist ((List.filter_sublist db.retweets).map Retweet.id) hR
  constructor
  · show likesCountAgg (likesOf db t.id) (retweetsOf db t.id) = countLikesQuery db t.id
    unfold likesCountAgg countLikesQuery
    rw [countAgg_fst _ _ Like.id hndL, List.countP_eq_length_filter]
    rfl
  · show retweetsCountAgg (likesOf db t.id) (retweetsOf db t.id) =
      countRetweetsQuery db t.id
    unfold retweetsCountAgg countRetweetsQuery
    rw [countAgg_snd _ _ Retweet.id hndR, List.countP_eq_length_filter]
    rfl

/-- Witness for C5 on `sampleDB`: the feed row of tweet 10 reports exactly
the two likes and one retweet stored for it. -/
theorem feed_counts_exact_witness :
    (feedRowOf sampleDB
        { id := 10, user_id := 1, content := "hi", created_at := 100,
          updated_at := 100 }
        { id := 1, email := "a@x", name := "A", avatar_url := "" }).likes_count =
      countLikesQuery sampleDB
        (feedRowOf sampleDB
          { id := 10, user_id := 1, content := "hi", created_at := 100,
            updated_at := 100 }
          { id := 1, email := "a@x", name := "A", avatar_url := "" }).tweet.id :=
  (feed_counts_exact sampleDB 1 _ (by decide) (by decide)
    ((mem_homeFeedAll_iff sampleDB 1 _).mpr (by decide))).1

/-! ## C2: a user likes a tweet at most once, across all operations -/

/-- How a successful operation can change the `likes` table: not at all, by
deleting rows, or by inserting one row whose `(user_id, tweet_id)` pair was
not present (the `likeTweet` duplicate check / unique constraint). -/
theorem applyOp_likes_shape (db : DB) (op : Op) (db2 : DB)
    (h : applyOp db op = .ok db2) :
    db2.likes = db.likes
    ∨ (∃ q, db2.likes = db.likes.filter q)
    ∨ (∃ x, db2.likes = db.likes ++ [x] ∧
        db.likes.any (fun l => l.user_id == x.user_id && l.tweet_id == x.tweet_id)
          = false) := by
  cases op with
  | signup email password name uid ts =>
    simp only [applyOp, signup] at h
    split at h
    · cases h
    · injection h with h; subst h; exact Or.inl rfl
  | updateUser uid name =>
    simp only [applyOp, updateUser] at h
    split at h
    · cases h
    · injection h with h; subst h; exact Or.inl rfl
  | createTweet uid content tid ts =>
    simp only [applyOp, createTweet] at h
    split at h
    · cases h
    · split at h
      · cases h
      · injection h with h; subst h; exact Or.inl rfl
  | updateTweet uid tid content ts =>
    simp only [applyOp, updateTweet] at h
    split at h
    · cases h
    · split at h
      · cases h
      · split at h
        · cases h
        · split at h
          · cases h
          · injection h with h; subst h; exact Or.inl rfl
  | deleteTweet uid tid =>
    simp only [applyOp, deleteTweet] at h
    split at h
    · cases h
    · split at h
      · cases h
      · split at h
        · cases h
        · injection h with h; subst h
          exact Or.inr (Or.inl ⟨_, rfl⟩)
  | likeTweet uid tid lid ts =>
    simp only [applyOp, likeTweet] at h
    split at h
    · cases h
    · split at h
      · cases h
      · split at h
        · cases h
        · split at h
          · cases h
          · rename_i hnotdup _
            injection h with h; subst h
            refine Or.inr (Or.inr ⟨_, rfl, ?_⟩)
            simpa using hnotdup
  | unlikeTweet uid tid =>
    simp only [applyOp, unlikeTweet] at h
    split at h
    · cases h
    · split at h
      · cases h
      · injection h with h; subst h
        exact Or.inr (Or.inl ⟨_, rfl⟩)
  | retweetTweet uid tid rid ts =>
    simp only [applyOp, retweetTweet] at h
    split at h
    · cases h
    · split at h
      · cases h
      · split at h
        · cases h
        · split at h
          · cases h
          · injection h with h; subst h; exact Or.inl rfl
  | unretweetTweet uid tid =>
    simp only [applyOp, unretweetTweet] at h
    split at h
    · cases h
    · split at h
      · cases h
      · injection h with h; subst h; exact Or.inl rfl
  | followUser uid target fid ts =>
    simp only [applyOp, followUser] at h
    split at h
    · cases h
    · split at h
      · cases h
      · split at h
        · cases h
        · split at h
          · cases h
          · injection h with h; subst h; exact Or.inl rfl
  | unfollowUser uid target =>
    simp only [applyOp, unfollowUser] at h
    split at h
    · cases h
    · split at h
      · cases h
      · injection h with h; subst h; exact Or.inl rfl

/-- C2.  Under the schema's `UNIQUE(user_id, tweet_id)` constraint the
`likes` table holds at most one row per user/tweet pair, and every operation
of the API preserves this bound. -/
theorem like_at_most_once :
    (∀ db : DB, ∀ u t : Nat, schemaOk db →
      db.likes.countP (fun l => l.user_id == u && l.tweet_id == t) ≤ 1)
    ∧ (∀ db : DB, ∀ op : Op, ∀ u t : Nat,
      db.likes.countP (fun l => l.user_id == u && l.tweet_id == t) ≤ 1 →
      (stepResult db op).likes.countP
        (fun l => l.user_id == u && l.tweet_id == t) ≤ 1) := by
  constructor
  · intro db u t hok
    obtain ⟨_, _, _, _, _, _, _, _, _, _, _, hlu, _⟩ := hok
    have hle := nodup_countP_le_one db.likes
      (fun l => (l.user_id, l.tweet_id)) (u, t) hlu
    have hcongr : ∀ l ∈ db.likes,
        ((l.user_id == u && l.tweet_id == t) = true) ↔
          (decide ((l.user_id, l.tweet_id) = (u, t)) = true) := by
      intro l _
      simp [Prod.ext_iff]
    calc db.likes.countP (fun l => l.user_id == u && l.tweet_id == t)
        = db.likes.countP (fun l => decide ((l.user_id, l.tweet_id) = (u, t))) :=
          List.countP_congr hcongr
      _ ≤ 1 := hle
  · intro db op u t hle
    cases happ : applyOp db op with
    | error e => simpa [stepResult, happ] using hle
    | ok db2 =>
      have hsh := applyOp_likes_shape db op db2 happ
      simp only [stepResult, happ]
      rcases hsh with heq | ⟨q, heq⟩ | ⟨x, heq, hnew⟩
      · rw [heq]; exact hle
      · rw [heq, List.countP_filter]
        exact le_trans (List.countP_mono_left (by
          intro a _ hpq
          exact (Bool.and_eq_true _ _).mp hpq |>.1)) hle
      · rw [heq, List.countP_append]
        by_cases hx : (x.user_id == u && x.tweet_id == t) = true
        · have hx1 : x.user_id = u := by
            have := ((Bool.and_eq_true _ _).mp hx).1
            exact beq_iff_eq.mp this
          have hx2 : x.tweet_id = t := by
            have := ((Bool.and_eq_true _ _).mp hx).2
            exact beq_iff_eq.mp this
          have hzero : db.likes.countP (fun l => l.user_id == u && l.tweet_id == t) = 0 := by
            rw [List.countP_eq_zero]
            intro a ha hpa
            have hall := List.any_eq_false.mp hnew a ha
            rw [← hx1, ← hx2] at hpa
            exact hall hpa
          simp [hzero, hx]
        · have : (fun l => l.user_id == u && l.tweet_id == t) x = false :=
            Bool.eq_false_iff.mpr hx
          simp [List.countP_cons, this]
          exact hle

/-- Witness for C2: the bound holds on `sampleDB` for user 2 and tweet 10,
and is preserved by a further (rejected) duplicate like. -/
theorem like_at_most_once_witness :
    sampleDB.likes.countP (fun l => l.user_id == 2 && l.tweet_id == 10) ≤ 1
    ∧ (stepResult sampleDB (Op.likeTweet 2 10 99 999)).likes.countP
        (fun l => l.user_id == 2 && l.tweet_id == 10) ≤ 1 :=
  ⟨like_at_most_once.1 sampleDB 2 10 (by decide),
   like_at_most_once.2 sampleDB (Op.likeTweet 2 10 99 999) 2 10 (by decide)⟩

/-! ## C3: are all invariants enforced by the schema alone? -/

/-- How a successful operation can change the `follows` table: not at all, by
deleting rows, or by inserting one non-self edge (the `followUser`
validation rejects `uid == target` before inserting). -/
theorem applyOp_follows_shape (db : DB) (op : Op) (db2 : DB)
    (h : applyOp db op = .ok db2) :
    db2.follows = db.follows
    ∨ (∃ q, db2.follows = db.follows.filter q)
    ∨ (∃ x, db2.follows = db.follows ++ [x] ∧ x.follower_id ≠ x.following_id) := by
  cases op with
  | signup email password name uid ts =>
    simp only [applyOp, signup] at h
    split at h
    · cases h
    · injection h with h; subst h; exact Or.inl rfl
  | updateUser uid name =>
    simp only [applyOp, updateUser] at h
    split at h
    · cases h
    · injection h with h; subst h; exact Or.inl rfl
  | createTweet uid content tid ts =>
    simp only [applyOp, createTweet] at h
    split at h
    · cases h
    · split at h
      · cases h
      · injection h with h; subst h; exact Or.inl rfl
  | updateTweet uid tid content ts =>
    simp only [applyOp, updateTweet] at h
    split at h
    · cases h
    · split at h
      · cases h
      · split at h
        · cases h
        · split at h
          · cases h
          · injection h with h; subst h; exact Or.inl rfl
  | deleteTweet uid tid =>
    simp only [applyOp, deleteTweet] at h
    split at h
    · cases h
    · split at h
      · cases h
      · split at h
        · cases h
        · injection h with h; subst h; exact Or.inl rfl
  | likeTweet uid tid lid ts =>
    simp only [applyOp, likeTweet] at h
    split at h
    · cases h
    · split at h
      · cases h
      · split at h
        · cases h
        · split at h
          · cases h
          · injection h with h; subst h; exact Or.inl rfl
  | unlikeTweet uid tid =>
    simp only [applyOp, unlikeTweet] at h
    split at h
    · cases h
    · split at h
      · cases h
      · injection h with h; subst h; exact Or.inl rfl
  | retweetTweet uid tid rid ts =>
    simp only [applyOp, retweetTweet] at h
    split at h
    · cases h
    · split at h
      · cases h
      · split at h
        · cases h
        · split at h
          · cases h
          · injection h with h; subst h; exact Or.inl rfl
  | unretweetTweet uid tid =>
    simp only [applyOp, unretweetTweet] at h
    split at h
    · cases h
    · split at h
      · cases h
      · injection h with h; subst h; exact Or.inl rfl
  | followUser uid target fid ts =>
    simp only [applyOp, followUser] at h
    split at h
    · cases h
    · split at h
      · cases h
      · split at h
        · cases h
        · split at h
          · cases h
          · rename_i hne _
            injection h with h; subst h
            refine Or.inr (Or.inr ⟨_, rfl, ?_⟩)
            simpa using hne
  | unfollowUser uid target =>
    simp only [applyOp, unfollowUser] at h
    split at h
    · cases h
    · split at h
      · cases h
      · injection h with h; subst h
        exact Or.inr (Or.inl ⟨_, rfl⟩)

set_option maxRecDepth 4000 in
/-- C3 counterexample.  The claim that every invariant is enforced entirely
by the relational schema is false: `selfFollowDB` satisfies every schema
constraint yet violates the documented no-self-follow invariant, so that
invariant is not a consequence of the schema. -/
theorem invariants_not_all_schema_enforced :
    ¬ (∀ db : DB, schemaOk db → noSelfFollow db) := by
  intro hall
  exact absurd (hall selfFollowDB (by decide)) (by decide)

set_option maxRecDepth 4000 in
/-- C3 amended.  The schema's constraints do not imply the no-self-follow
invariant, nor the 1–280-character content invariant: schema-conformant
states violating each exist.  Those two invariants are maintained by
application-layer validation, which every operation of the API preserves
(shown here for no-self-follow). -/
theorem schema_vs_app_enforcement :
    (∃ db : DB, schemaOk db ∧ ¬ noSelfFollow db)
    ∧ (∃ db : DB, schemaOk db ∧ ¬ contentWithinLimit db)
    ∧ (∀ db : DB, ∀ op : Op, noSelfFollow db → noSelfFollow (stepResult db op)) := by
  refine ⟨⟨selfFollowDB, by decide, by decide⟩,
          ⟨longContentDB, by decide, by decide⟩, ?_⟩
  intro db op hns
  cases happ : applyOp db op with
  | error e => simpa [stepResult, happ] using hns
  | ok db2 =>
    simp only [stepResult, happ]
    rcases applyOp_follows_shape db op db2 happ with heq | ⟨q, heq⟩ | ⟨x, heq, hxne⟩
    · intro f hf
      exact hns f (heq ▸ hf)
    · intro f hf
      rw [heq] at hf
      exact hns f (List.mem_of_mem_filter hf)
    · intro f hf
      rw [heq] at hf
      rcases List.mem_append.mp hf with hf | hf
      · exact hns f hf
      · rcases List.mem_singleton.mp hf with rfl
        exact hxne

/-- Witness for C3's preservation clause: after user 2 follows user 1 on
`sampleDB`, there is still no self-follow. -/
theorem schema_vs_app_enforcement_witness :
    noSelfFollow (stepResult sampleDB (Op.followUser 2 1 21 55)) :=
  schema_vs_app_enforcement.2.2 sampleDB (Op.followUser 2 1 21 55) (by decide)

/-! ## C7: every tweet has exactly one existing owner -/

/-- Every successful operation preserves the `tweets.user_id` foreign key:
no operation can create a tweet without an existing owner. -/
theorem applyOp_ok_tweetsFK (db : DB) (op : Op) (db2 : DB)
    (h : applyOp db op = .ok db2) (hfk : tweetsFK db) : tweetsFK db2 := by
  cases op with
  | signup email password name uid ts =>
    simp only [applyOp, signup] at h
    split at h
    · cases h
    · injection h with h; subst h
      intro t ht
      rcases hfk t ht with ⟨u, hu, hui⟩
      exact ⟨u, List.mem_append_left _ hu, hui⟩
  | updateUser uid name =>
    simp only [applyOp, updateUser] at h
    split at h
    · cases h
    · injection h with h; subst h
      intro t ht
      rcases hfk t ht with ⟨u, hu, hui⟩
      refine ⟨if u.id == uid then { u with name := name } else u,
        List.mem_map_of_mem _ hu, ?_⟩
      split <;> exact hui
  | createTweet uid content tid ts =>
    simp only [applyOp, createTweet] at h
    split at h
    · cases h
    · rename_i hauth
      split at h
      · cases h
      · injection h with h; subst h
        intro t ht
        rcases List.mem_append.mp ht with ht | ht
        · exact hfk t ht
        · rcases List.mem_singleton.mp ht with rfl
          have hauth2 : isUser db uid = true := by simpa using hauth
          rcases List.any_eq_true.mp hauth2 with ⟨u, hu, hbeq⟩
          exact ⟨u, hu, beq_iff_eq.mp hbeq⟩
  | updateTweet uid tid content ts =>
    simp only [applyOp, updateTweet] at h
    split at h
    · cases h
    · split at h
      · cases h
      · split at h
        · cases h
        · split at h
          · cases h
          · injection h with h; subst h
            intro t ht
            rcases List.mem_map.mp ht with ⟨t0, ht0, rfl⟩
            rcases hfk t0 ht0 with ⟨u, hu, hui⟩
            refine ⟨u, hu, ?_⟩
            split <;> exact hui
  | deleteTweet uid tid =>
    simp only [applyOp, deleteTweet] at h
    split at h
    · cases h
    · split at h
      · cases h
      · split at h
        · cases h
        · injection h with h; subst h
          intro t ht
          exact hfk t (List.mem_of_mem_filter ht)
  | likeTweet uid tid lid ts =>
    simp only [applyOp, likeTweet] at h
    split at h
    · cases h
    · split at h
      · cases h
      · split at h
        · cases h
        · split at h
          · cases h
          · injection h with h; subst h; exact hfk
  | unlikeTweet uid tid =>
    simp only [applyOp, unlikeTweet] at h
    split at h
    · cases h
    · split at h
      · cases h
      · injection h with h; subst h; exact hfk
  | retweetTweet uid tid rid ts =>
    simp only [applyOp, retweetTweet] at h
    split at h
    · cases h
    · split at h
      · cases h
      · split at h
        · cases h
        · split at h
          · cases h
          · injection h with h; subst h; exact hfk
  | unretweetTweet uid tid =>
    simp only [applyOp, unretweetTweet] at h
    split at h
    · cases h
    · split at h
      · cases h
      · injection h with h; subst h; exact hfk
  | followUser uid target fid ts =>
    simp only [applyOp, followUser] at h
    split at h
    · cases h
    · split at h
      · cases h
      · split at h
        · cases h
        · split at h
          · cases h
          · injection h with h; subst h; exact hfk
  | unfollowUser uid target =>
    simp only [applyOp, unfollowUser] at h
    split at h
    · cases h
    · split at h
      · cases h
      · injection h with h; subst h; exact hfk

/-- C7.  In a schema-conformant state every tweet row is owned by exactly one
`users` row (its single non-null `user_id` resolves to a unique user), and
every operation preserves the `tweets.user_id` foreign key, so no operation
creates a tweet without an existing owner. -/
theorem tweet_single_owner :
    (∀ db : DB, schemaOk db → ∀ t ∈ db.tweets,
      ∃! u : User, u ∈ db.users ∧ u.id = t.user_id)
    ∧ (∀ db : DB, ∀ op : Op, tweetsFK db → tweetsFK (stepResult db op)) := by
  constructor
  · intro db hok t ht
    obtain ⟨hU, _, _, _, _, _, hfk, _⟩ := hok
    rcases hfk t ht with ⟨u, hu, hui⟩
    refine ⟨u, ⟨hu, hui⟩, ?_⟩
    rintro v ⟨hv, hvi⟩
    exact List.inj_on_of_nodup_map hU hv hu (by rw [hvi, hui])
  · intro db op hfk
    cases happ : applyOp db op with
    | error e => simpa [stepResult, happ] using hfk
    | ok db2 =>
      simp only [stepResult, happ]
      exact applyOp_ok_tweetsFK db op db2 happ hfk

/-- Witness for C7 on `sampleDB`: creating a tweet for the authenticated
user 1 keeps the ownership foreign key intact. -/
theorem tweet_single_owner_witness :
    tweetsFK (stepResult sampleDB (Op.createTweet 1 "hello" 13 300)) :=
  tweet_single_owner.2 sampleDB (Op.createTweet 1 "hello" 13 300) (by decide)

/-! ## C8: `LIMIT`/`OFFSET` pagination -/

/-- A `flatMap` whose outer keys are distinct and whose inner lists are
short (at most one element, each tagged with its outer key) has distinct
images. -/
theorem flatMap_map_nodup {α β γ : Type} (ts : List α)
    (g : α → List β) (key : α → γ) (h : β → γ)
    (hts : (ts.map key).Nodup)
    (hkey : ∀ t, ∀ r ∈ g t, h r = key t)
    (hlen : ∀ t, (g t).length ≤ 1) :
    ((ts.flatMap g).map h).Nodup := by
  induction ts with
  | nil => simp
  | cons t ts ih =>
    rw [List.map_cons, List.nodup_cons] at hts
    rw [List.flatMap_cons, List.map_append]
    refine List.Nodup.append ?_ (ih hts.2) ?_
    · have hl := hlen t
      rcases hg : g t with _ | ⟨b, bs⟩
      · simp
      · rw [hg, List.length_cons] at hl
        have hbs : bs = [] := List.length_eq_zero.mp (by omega)
        subst hbs
        simp
    · intro x hx1 hx2
      rcases List.mem_map.mp hx1 with ⟨r, hr, rfl⟩
      rcases List.mem_map.mp hx2 with ⟨r2, hr2, hr2x⟩
      rcases List.mem_flatMap.mp hr2 with ⟨t2, ht2, hrt2⟩
      apply hts.1
      have hkt : key t = key t2 := by
        rw [← hkey t r hr, ← hr2x, hkey t2 r2 hrt2]
      rw [hkt]
      exact List.mem_map_of_mem key ht2

theorem homeFeedAll_nodup (db : DB) (uid : Nat)
    (hU : usersPK db) (hT : tweetsPK db) : (homeFeedAll db uid).Nodup := by
  have hts : ((db.tweets.filter (fun t => inHomeFeed db uid t)).map Tweet.id).Nodup :=
    List.Nodup.sublist ((List.filter_sublist _).map Tweet.id) hT
  have hrows : ((homeFeedRows db uid).map (fun r => r.tweet.id)).Nodup := by
    unfold homeFeedRows
    refine flatMap_map_nodup _ _ Tweet.id _ hts ?_ ?_
    · intro t r hr
      rcases List.mem_map.mp hr with ⟨u, _, rfl⟩
      rfl
    · intro t
      rw [List.length_map]
      have hcount := nodup_countP_le_one db.users User.id t.user_id hU
      have hfeq : db.users.filter (fun u => u.id == t.user_id)
          = db.users.filter (fun u => decide (u.id = t.user_id)) := by
        apply List.filter_congr
        intro u _
        by_cases hu : u.id = t.user_id <;> simp [hu]
      rw [hfeq, ← List.countP_eq_length_filter]
      exact hcount
  have hperm := (List.mergeSort_perm (homeFeedRows db uid)
    (fun a b => decide (b.tweet.created_at ≤ a.tweet.created_at))).map
    (fun r => r.tweet.id)
  have hall : ((homeFeedAll db uid).map (fun r => r.tweet.id)).Nodup :=
    (hperm.nodup_iff).mpr hrows
  exact List.Nodup.of_map _ hall

/-- C8.  `homeFeed limit offset` returns at most `limit` rows, and its `i`-th
row is row `offset + i` of the full ordered result set; consecutive pages are
disjoint (under the schema's primary keys, which make the rows distinct), and
the concatenation of the first two pages is the `2·limit`-row prefix of the
full result. -/
theorem homeFeed_pagination (db : DB) (uid l o : Nat)
    (hU : usersPK db) (hT : tweetsPK db) :
    (homeFeed db uid l o).length ≤ l
    ∧ (∀ i, i < l → (homeFeed db uid l o)[i]? = (homeFeedAll db uid)[o + i]?)
    ∧ (homeFeed db uid l o).Disjoint (homeFeed db uid l (o + l))
    ∧ homeFeed db uid l 0 ++ homeFeed db uid l l = (homeFeedAll db uid).take (l + l) := by
  refine ⟨?_, ?_, ?_, ?_⟩
  · unfold homeFeed
    rw [List.length_take]
    omega
  · intro i hi
    unfold homeFeed
    rw [List.getElem?_take, if_pos hi]
    exact List.getElem?_drop _ o i
  · unfold homeFeed
    have hnd : (homeFeedAll db uid).Nodup := homeFeedAll_nodup db uid hU hT
    have hys : ((homeFeedAll db uid).drop o).Nodup :=
      List.Nodup.sublist (List.drop_sublist _ _) hnd
    have hdisj : (((homeFeedAll db uid).drop o).take l).Disjoint
        (((homeFeedAll db uid).drop o).drop l) :=
      List.disjoint_take_drop hys (le_refl l)
    intro a ha1 ha2
    have ha2d : a ∈ ((homeFeedAll db uid).drop o).drop l := by
      rw [List.drop_drop]
      exact List.take_subset _ _ ha2
    exact hdisj ha1 ha2d
  · unfold homeFeed
    rw [List.drop_zero, List.take_add]

/-- Witness for C8 on `sampleDB` with `limit = 1`: page 1 has at most one
row, its first row is row 1 of the full result, pages 1 and 2 are disjoint,
and pages 0 and 1 concatenated form the 2-row prefix. -/
theorem homeFeed_pagination_witness :
    (homeFeed sampleDB 1 1 1).length ≤ 1
    ∧ (homeFeed sampleDB 1 1 1)[0]? = (homeFeedAll sampleDB 1)[1 + 0]?
    ∧ (homeFeed sampleDB 1 1 1).Disjoint (homeFeed sampleDB 1 1 (1 + 1))
    ∧ homeFeed sampleDB 1 1 0 ++ homeFeed sampleDB 1 1 1 =
        (homeFeedAll sampleDB 1).take (1 + 1) := by
  have h := homeFeed_pagination sampleDB 1 1 1 (by decide) (by decide)
  exact ⟨h.1, h.2.1 0 (by decide), h.2.2.1,
    (homeFeed_pagination sampleDB 1 1 0 (by decide) (by decide)).2.2.2⟩

end TwitterApp
